import Mathlib

/-!
Verification development for the SoupaWhisper push-to-talk dictation tool
(src/dictate.py). The Python source is shallowly embedded below:

- Strings are Lean String; Python str helpers (strip, lower, upper, slicing,
  endswith, truthiness) are embedded as py-prefixed functions over the
  character list. Only ASCII behaviour is modelled (all configuration keys,
  model names and hotkey names in scope are ASCII).
- Python None for the optional fields record_process / temp_file is modelled
  with Option; for the string fields active_language / active_model_name,
  None is modelled as "" (both are falsy in Python, and the fields are only
  read by stop_recording after start_recording has set them).
- Side effects (spawning processes, notifications, prints, file deletion)
  are modelled as an explicit list of Effect values returned by each
  operation, in emission order.
- The model cache (dictate.py lines 109-154) is an association list keyed by
  model name. The lock serializes all cache operations, so cache behaviour
  is modelled as a sequential list of operations (acquire / load-completion).
- External collaborators are oracles: the transcription engine's outcome is
  an Except value (error or segment list), the background loader's outcome
  an Option String (some = the error message, none = success).
-/

/-! ## Python string helpers -/

/-- Python str truthiness: a string is truthy iff non-empty. Also models
reading a field whose Python value may be None, with None modelled as "". -/
def pyTruthy (s : String) : Bool := s ≠ ""

/-- Python truthiness of an Option String (None or a string): falsy iff
None or the empty string, as in the check on model_info error. -/
def pyTruthyOpt : Option String → Bool
  | none => false
  | some s => pyTruthy s

/-- Whitespace characters stripped by Python str.strip() (ASCII range). -/
def pyIsSpace (c : Char) : Bool :=
  c = ' ' ∨ c = '\t' ∨ c = '\n' ∨ c = '\r' ∨ c = '\x0b' ∨ c = '\x0c'

/-- Python str.strip(): drop leading and trailing whitespace. -/
def pyStrip (s : String) : String :=
  String.mk (((s.data.dropWhile pyIsSpace).reverse.dropWhile pyIsSpace).reverse)

/-- Python str.lower() (ASCII). -/
def pyLower (s : String) : String := String.mk (s.data.map Char.toLower)

/-- Python str.upper() (ASCII). -/
def pyUpper (s : String) : String := String.mk (s.data.map Char.toUpper)

/-- Python slicing s[:n]: the first n characters. -/
def pyTake (s : String) (n : Nat) : String := String.mk (s.data.take n)

/-- Python str.endswith(suffix). -/
def pyEndsWith (s suf : String) : Bool := List.isSuffixOf suf.data s.data

/-! ## Hotkey resolution (dictate.py lines 76-85, get_hotkey) -/

/-- A resolved pynput key: either a named member of keyboard.Key (such as
f12 or space) or a character key produced by KeyCode.from_char. -/
inductive PKey where
  | named (name : String)
  | char (c : Char)
deriving DecidableEq, Repr

/-- The member names of pynput keyboard.Key; models hasattr(keyboard.Key, n)
for the names a hotkey configuration can meaningfully use. Note that none of
these names is a single character. -/
def pynputKeyNames : List String :=
  ["alt", "alt_l", "alt_r", "alt_gr", "backspace", "caps_lock",
   "cmd", "cmd_l", "cmd_r", "ctrl", "ctrl_l", "ctrl_r", "delete",
   "down", "end", "enter", "esc",
   "f1", "f2", "f3", "f4", "f5", "f6", "f7", "f8", "f9", "f10",
   "f11", "f12", "f13", "f14", "f15", "f16", "f17", "f18", "f19", "f20",
   "home", "insert", "left",
   "media_next", "media_play_pause", "media_previous",
   "media_volume_down", "media_volume_mute", "media_volume_up",
   "menu", "num_lock", "page_down", "page_up", "pause", "print_screen",
   "right", "scroll_lock", "shift", "shift_l", "shift_r", "space",
   "tab", "up"]

/-- hasattr(keyboard.Key, name) restricted to the key members. -/
def isNamedKey (name : String) : Bool := pynputKeyNames.contains name

/-- get_hotkey (lines 76-85). Returns the resolved key together with a flag
that is true exactly when the unknown-key warning branch (print plus f12
fallback, lines 83-85) was taken. The headD default is never used: the char
branch is only reached when the lowered name has exactly one character. -/
def get_hotkey (key_name : String) : PKey × Bool :=
  let kn := pyLower key_name
  if isNamedKey kn then (PKey.named kn, false)
  else if kn.length = 1 then (PKey.char (kn.data.headD ' '), false)
  else (PKey.named "f12", true)

/-! ## Configuration resolution (dictate.py lines 26-70, load_config) -/

/-- One value of the languages dictionary built by load_config: the raw
hotkey string and the derived model identifier. -/
structure LangEntry where
  key : String
  model : String
deriving DecidableEq, Repr

/-- The per-language model derivation of load_config (lines 51-54): the
configured base model name gets the .en suffix iff the language is en. -/
def deriveModel (lang model_size : String) : String :=
  if lang = "en" then model_size ++ ".en" else model_size

/-- The languages dictionary built by load_config (lines 47-61). The items
argument is some list when the config has a languages section (its
(language, hotkey) pairs in order), none otherwise; legacyKey is the value
of the legacy single-hotkey setting (default f12). -/
def loadLanguages (model_size : String) (items : Option (List (String × String)))
    (legacyKey : String) : List (String × LangEntry) :=
  match items with
  | some its => its.map (fun p => (p.1, LangEntry.mk (pyStrip p.2) (deriveModel p.1 model_size)))
  | none => [("auto", LangEntry.mk legacyKey model_size)]

/-! ## Model cache (dictate.py lines 109-154) -/

/-- A model cache entry: the dictionary stored per model name (lines
128-132). The engine handle is Option Unit (present iff the load succeeded);
loaded models the threading.Event (set iff the loader finished); error holds
the failure message. -/
structure ModelEntry where
  model : Option Unit
  loaded : Bool
  error : Option String
deriving DecidableEq, Repr

/-- The entry created on first acquire (lines 128-132): Loading state. -/
def freshEntry : ModelEntry := ModelEntry.mk none false none

/-- The models dictionary: an association list keyed by model name. Keys are
never removed and a key is inserted only when absent, so there are no
duplicate keys in any reachable cache. -/
abbrev Models := List (String × ModelEntry)

/-- Dictionary lookup in the models cache. -/
def cacheFind : Models → String → Option ModelEntry
  | [], _ => none
  | (k, e) :: ms, name => if k = name then some e else cacheFind ms name

/-- In-place update of the entry stored under a key (the loader thread
mutates the dictionary value object, lines 146-154). -/
def cacheSet : Models → String → ModelEntry → Models
  | [], _, _ => []
  | (k, v) :: ms, name, e =>
    if k = name then (name, e) :: cacheSet ms name e
    else (k, v) :: cacheSet ms name e

/-- The terminal entry written by _load_model (lines 141-154): on success
the engine handle is attached, on failure the error message; the loaded
event is set in both cases (the finally block). -/
def loadedEntry : Option String → ModelEntry
  | none => ModelEntry.mk (some ()) true none
  | some msg => ModelEntry.mk none true (some msg)

/-- _get_or_load_model (lines 124-139), run under the models lock: if the
name is unknown, create a Loading entry and spawn the loader thread (the
returned Bool is true exactly when a loader was spawned); otherwise return
the existing entry untouched. -/
def getOrLoadModel (ms : Models) (name : String) : Models × ModelEntry × Bool :=
  match cacheFind ms name with
  | some e => (ms, e, false)
  | none => ((name, freshEntry) :: ms, freshEntry, true)

/-- Completion of a spawned loader for the given model name (lines
141-154). The loader runs at most once per entry (one thread is spawned per
creation), which the loaded guard encodes; a completion for an unknown name
cannot occur and is a no-op. -/
def finishLoad (ms : Models) (name : String) (res : Option String) : Models :=
  match cacheFind ms name with
  | none => ms
  | some e => if e.loaded then ms else cacheSet ms name (loadedEntry res)

/-- One serialized cache operation: an acquire call, or the completion of a
previously spawned background load with the given result. -/
inductive CacheOp where
  | acq (name : String)
  | fin (name : String) (res : Option String)

/-- Run a sequence of cache operations, returning the final cache and the
log of model names for which a loader thread was spawned, in order. -/
def runCache (ms : Models) : List CacheOp → Models × List String
  | [] => (ms, [])
  | CacheOp.acq name :: ops =>
    let g := getOrLoadModel ms name
    let r := runCache g.1 ops
    (r.1, (if g.2.2 then [name] else []) ++ r.2)
  | CacheOp.fin name res :: ops => runCache (finishLoad ms name res) ops

/-! ## Observable effects of the controller -/

/-- One observable side effect of the Dictation controller, in emission
order: spawning a loader thread, spawning or terminating the arecord capture
process, a console print, a desktop notification, the call into the
transcription engine, the clipboard write (xclip), keystroke injection
(xdotool), and deletion of the temporary audio file. -/
inductive Effect where
  | spawnLoad (model : String)
  | spawnArecord (path : String)
  | terminateRecorder
  | consoleLine (line : String)
  | notify (title message icon : String)
  | transcribeCall (path : String) (languageHint : Option String)
  | clipboardWrite (text : String)
  | typeText (text : String)
  | deleteFile (path : String)
deriving DecidableEq, Repr

/-- The behaviour toggles of the resolved configuration (AUTO_TYPE and
NOTIFICATIONS, lines 96-97). -/
structure RConfig where
  auto_type : Bool
  notifications : Bool
deriving DecidableEq, Repr

/-- The notify method (lines 156-171): emits a desktop notification unless
notifications are disabled. -/
def notifyEff (cfg : RConfig) (title message icon : String) : List Effect :=
  if cfg.notifications then [Effect.notify title message icon] else []

/-! ## Dictation state (lines 100-111) -/

/-- The mutable state of the Dictation object. record_process and temp_file
are Python None / object fields (Option); active_language and
active_model_name are initialized to None, modelled as "" (see header).
files models the filesystem: the set of temporary audio files currently in
existence, consulted by the cleanup path (os.path.exists). -/
structure DState where
  recording : Bool
  record_process : Option Nat
  temp_file : Option String
  active_language : String
  active_model_name : String
  models : Models
  files : List String
deriving DecidableEq, Repr

/-- The freshly constructed Dictation object (lines 101-111). -/
def initState : DState :=
  DState.mk false none none "" "" [] []

/-- The language display string (lines 119, 199). -/
def langDisplay (language : String) : String :=
  if language = "auto" then "auto-detect" else pyUpper language

/-- hotkey.name if the key is a named key else hotkey.char (line 200). -/
def keyDisplay : PKey → String
  | PKey.named n => n
  | PKey.char c => String.mk [c]

/-! ## stop_recording pipeline pieces (lines 204-271) -/

/-- Transcript assembly (line 245): strip each segment text and join the
results with single spaces, in emission order. -/
def assembleTranscript (segments : List String) : String :=
  String.intercalate " " (segments.map pyStrip)

/-- The truncated notification preview of the copied text (line 260):
first 100 characters, with an ellipsis iff the text is longer. -/
def preview (text : String) : String :=
  pyTake text 100 ++ (if 100 < text.length then "..." else "")

/-- The language kwarg computation (lines 235-238): a hint is attached only
when the active language is truthy and not "auto", and the active model
name does not end in ".en". -/
def languageKwarg (active_language active_model_name : String) : Option String :=
  if pyTruthy active_language = true ∧ active_language ≠ "auto" then
    if pyEndsWith active_model_name ".en" = false then some active_language else none
  else none

/-- The Python error message raised when the engine handle is None (only
reachable when a load failed with a falsy error message, so the Failed
check on line 224 did not fire); the attribute access on line 240 then
raises before the engine is invoked. Quotes of the original message are
omitted. -/
def noneModelMsg : String := "NoneType object has no attribute transcribe"

/-- The try/except block of stop_recording (lines 230-267): call the engine
and deliver the transcript. engine is the cached handle (None possible, see
noneModelMsg); oc is the engine outcome, an exception message or the list
of segment texts. -/
def tryBlock (cfg : RConfig) (engine : Option Unit) (path : String)
    (langHint : Option String) (oc : Except String (List String)) : List Effect :=
  match engine with
  | none =>
    Effect.consoleLine ("Error: " ++ noneModelMsg) ::
      notifyEff cfg "Error" (pyTake noneModelMsg 50) "dialog-error"
  | some _ =>
    Effect.transcribeCall path langHint ::
    match oc with
    | Except.error e =>
      Effect.consoleLine ("Error: " ++ e) :: notifyEff cfg "Error" (pyTake e 50) "dialog-error"
    | Except.ok segments =>
      let text := assembleTranscript segments
      if pyTruthy text then
        Effect.clipboardWrite text ::
          ((if cfg.auto_type then [Effect.typeText text] else []) ++
            (Effect.consoleLine ("Copied: " ++ text) ::
              notifyEff cfg "Copied!" (preview text) "emblem-ok-symbolic"))
      else
        Effect.consoleLine "No speech detected" ::
          notifyEff cfg "No speech detected" "Try speaking louder" "dialog-warning"

/-- The finally block of stop_recording (lines 268-271): delete the
temporary file if the field is set and the file exists. -/
def cleanupTempFile (s : DState) : DState × List Effect :=
  match s.temp_file with
  | some p =>
    if s.files.contains p then
      (DState.mk s.recording s.record_process s.temp_file s.active_language
        s.active_model_name s.models (s.files.erase p), [Effect.deleteFile p])
    else (s, [])
  | none => (s, [])

/-- Lines 208-216 of stop_recording: clear the recording flag, terminate
and join the capture process if one is running, and announce transcription. -/
def stopPrefix (cfg : RConfig) (s : DState) : DState × List Effect :=
  let s1 := DState.mk false s.record_process s.temp_file s.active_language
    s.active_model_name s.models s.files
  ( if s1.record_process.isSome then
      DState.mk s1.recording none s1.temp_file s1.active_language
        s1.active_model_name s1.models s1.files
    else s1,
    (if s1.record_process.isSome then [Effect.terminateRecorder] else []) ++
      Effect.consoleLine "Transcribing..." ::
        notifyEff cfg "Transcribing..." "Processing your speech" "emblem-synchronizing" )

/-- Lines 219-222 of stop_recording: acquire the cache entry for the active
model, then block on its loaded event. If the entry is still Loading, the
background loader completes during the wait; lr is the oracle giving that
loader's result (some = error message, none = success). Returns the state
(with the cache as the waiter observes it), the observed entry, and whether
this acquire spawned a new loader. -/
def awaitModel (s : DState) (lr : Option String) : DState × ModelEntry × Bool :=
  let g := getOrLoadModel s.models s.active_model_name
  let e := if g.2.1.loaded then g.2.1 else loadedEntry lr
  ( DState.mk s.recording s.record_process s.temp_file s.active_language
      s.active_model_name
      (if g.2.1.loaded then g.1 else cacheSet g.1 s.active_model_name e) s.files,
    e, g.2.2 )

/-- The terminal entry observed by a stop_recording call on state s after
the loaded wait (lines 219-222). -/
def waitedEntry (s : DState) (lr : Option String) : ModelEntry :=
  (awaitModel s lr).2.1

/-! ## start_recording and stop_recording (lines 173-271) -/

/-- start_recording (lines 173-202): a no-op while already recording;
otherwise kick off the background model load (non-blocking), mark the
session active, create a fresh temporary file, spawn arecord on it, and
announce the recording. freshPath and pid stand for the fresh temp file
name and the spawned process. -/
def startRecording (cfg : RConfig) (language model_name hotkeyName freshPath : String)
    (pid : Nat) (s : DState) : DState × List Effect :=
  if s.recording then (s, [])
  else
    let g := getOrLoadModel s.models model_name
    ( DState.mk true (some pid) (some freshPath) language model_name g.1
        (freshPath :: s.files),
      (if g.2.2 then [Effect.spawnLoad model_name] else []) ++
        Effect.spawnArecord freshPath ::
        Effect.consoleLine ("Recording (" ++ langDisplay language ++ ")...") ::
        notifyEff cfg ("Recording (" ++ langDisplay language ++ ")...")
          ("Release " ++ pyUpper hotkeyName ++ " when done") "audio-input-microphone" )

/-- stop_recording (lines 204-271): a no-op while not recording; otherwise
stop the capture, wait for the active model, and either report a failed
load (early return on line 227 - note this path skips the finally cleanup)
or transcribe, deliver, and clean up the temporary file. -/
def stopRecording (cfg : RConfig) (lr : Option String)
    (oc : Except String (List String)) (s : DState) : DState × List Effect :=
  if s.recording = false then (s, [])
  else
    if pyTruthyOpt (awaitModel (stopPrefix cfg s).1 lr).2.1.error then
      ((awaitModel (stopPrefix cfg s).1 lr).1,
        ((stopPrefix cfg s).2 ++
          (if (awaitModel (stopPrefix cfg s).1 lr).2.2 then
            [Effect.spawnLoad (stopPrefix cfg s).1.active_model_name] else [])) ++
          Effect.consoleLine "Cannot transcribe: model failed to load" ::
            notifyEff cfg "Error" "Model failed to load" "dialog-error")
    else
      ((cleanupTempFile (awaitModel (stopPrefix cfg s).1 lr).1).1,
        ((stopPrefix cfg s).2 ++
          (if (awaitModel (stopPrefix cfg s).1 lr).2.2 then
            [Effect.spawnLoad (stopPrefix cfg s).1.active_model_name] else [])) ++
          tryBlock cfg (awaitModel (stopPrefix cfg s).1 lr).2.1.model
            ((awaitModel (stopPrefix cfg s).1 lr).1.temp_file.getD "")
            (languageKwarg (awaitModel (stopPrefix cfg s).1 lr).1.active_language
              (awaitModel (stopPrefix cfg s).1 lr).1.active_model_name) oc ++
          (cleanupTempFile (awaitModel (stopPrefix cfg s).1 lr).1).2)

/-! ## Hotkey dispatch (lines 88-92, 273-280) -/

/-- One value of HOTKEY_TO_LANG (lines 88-92): the language and resolved
model identifier bound to a hotkey. -/
structure LangBinding where
  lang : String
  model : String
deriving DecidableEq, Repr

/-- The HOTKEY_TO_LANG dictionary. -/
abbrev HotkeyMap := List (PKey × LangBinding)

/-- Dictionary lookup in HOTKEY_TO_LANG. -/
def keyFind : HotkeyMap → PKey → Option LangBinding
  | [], _ => none
  | (k, v) :: m, key => if k = key then some v else keyFind m key

/-- on_press (lines 273-276): start a recording when the pressed key is a
bound hotkey. -/
def on_press (map : HotkeyMap) (cfg : RConfig) (freshPath : String) (pid : Nat)
    (key : PKey) (s : DState) : DState × List Effect :=
  match keyFind map key with
  | some b => startRecording cfg b.lang b.model (keyDisplay key) freshPath pid s
  | none => (s, [])

/-- on_release (lines 278-280): stop the recording when the released key is
any bound hotkey and a recording is active. -/
def on_release (map : HotkeyMap) (cfg : RConfig) (lr : Option String)
    (oc : Except String (List String)) (key : PKey) (s : DState) : DState × List Effect :=
  if (keyFind map key).isSome && s.recording then stopRecording cfg lr oc s
  else (s, [])

/-- One hotkey event together with the environment data it consumes: a
press carries the fresh temp file path and capture pid the session would
use, a release carries the loader-result and engine-outcome oracles. -/
inductive Ev where
  | press (k : PKey) (freshPath : String) (pid : Nat)
  | release (k : PKey) (lr : Option String) (oc : Except String (List String))

/-- Dispatch of one event on the pynput listener thread. -/
def stepEv (map : HotkeyMap) (cfg : RConfig) (s : DState) : Ev → DState × List Effect
  | Ev.press k path pid => on_press map cfg path pid k s
  | Ev.release k lr oc => on_release map cfg lr oc k s

/-- Run of the listener: events are delivered sequentially on a single
thread, each handler running to completion before the next event. Returns
the final state and the concatenated effect trace. -/
def runEvents (map : HotkeyMap) (cfg : RConfig) (s : DState) : List Ev → DState × List Effect
  | [] => (s, [])
  | e :: es =>
    let r := stepEv map cfg s e
    let r2 := runEvents map cfg r.1 es
    (r2.1, r.2 ++ r2.2)

/-- Effects that invoke the engine or deliver text (transcription call,
clipboard write, keystroke injection). -/
def deliveryEffect : Effect → Bool
  | Effect.transcribeCall _ _ => true
  | Effect.clipboardWrite _ => true
  | Effect.typeText _ => true
  | _ => false

/-- Effects that delete a file. -/
def isDeleteFile : Effect → Bool
  | Effect.deleteFile _ => true
  | _ => false

/-! ## Concrete example configurations and states -/

/-- Both behaviour toggles enabled (defaults of the sample config). -/
def cfgOn : RConfig := RConfig.mk true true

/-- A session that was started for English with the base.en model and whose
model load will be observed to fail at stop time. -/
def c2state : DState := (startRecording cfgOn "en" "base.en" "f9" "tmp1.wav" 7 initState).1

/-- A recording session for auto-detect whose model is already Ready. -/
def readyState : DState :=
  DState.mk true (some 5) (some "cap.wav") "auto" "base"
    [("base", loadedEntry none)] ["cap.wav"]

/-- A single-binding hotkey map: f12 bound to auto-detect on model base. -/
def mapEx : HotkeyMap := [(PKey.named "f12", LangBinding.mk "auto" "base")]

/-- Press f12, release it while the model load fails, then press f12 again. -/
def evsEx : List Ev :=
  [Ev.press (PKey.named "f12") "rec1.wav" 11,
   Ev.release (PKey.named "f12") (some "load failed") (Except.ok ["hello"]),
   Ev.press (PKey.named "f12") "rec2.wav" 12]

/-- The run of evsEx from the initial state. -/
def c8run : DState × List Effect := runEvents mapEx cfgOn initState evsEx

/-- A two-binding hotkey map: f12 for auto-detect, f9 for English. -/
def map2ex : HotkeyMap :=
  [(PKey.named "f12", LangBinding.mk "auto" "base"),
   (PKey.named "f9", LangBinding.mk "en" "base.en")]

/-- The state after pressing f12 under map2ex: a session started by f12. -/
def c3s1 : DState := (on_press map2ex cfgOn "a.wav" 3 (PKey.named "f12") initState).1

/-! ### Cache lemmas -/

theorem cacheFind_cons_self (ms : Models) (name : String) (e : ModelEntry) :
    cacheFind ((name, e) :: ms) name = some e := by
  simp [cacheFind]

theorem cacheFind_cons_ne (ms : Models) {k name : String} (e : ModelEntry)
    (h : k ≠ name) : cacheFind ((k, e) :: ms) name = cacheFind ms name := by
  simp [cacheFind, h]

theorem cacheFind_cacheSet_ne (ms : Models) {name M : String} (e : ModelEntry)
    (h : name ≠ M) : cacheFind (cacheSet ms name e) M = cacheFind ms M := by
  induction ms with
  | nil => rfl
  | cons p ms ih =>
    obtain ⟨k, v⟩ := p
    by_cases hk : k = name
    · simp [cacheSet, cacheFind, hk, h, ih]
    · by_cases hm : k = M
      · simp [cacheSet, cacheFind, hk, hm, Ne.symm h]
      · simp [cacheSet, cacheFind, hk, hm, ih]

theorem isSome_cacheFind_cacheSet (ms : Models) (name M : String) (e : ModelEntry) :
    (cacheFind (cacheSet ms name e) M).isSome = (cacheFind ms M).isSome := by
  induction ms with
  | nil => rfl
  | cons p ms ih =>
    obtain ⟨k, v⟩ := p
    by_cases hk : k = name
    · by_cases hm : k = M
      · simp [cacheSet, cacheFind, hk, hm, hk ▸ hm]
      · have hnm : ¬ name = M := fun hEq => hm (hk.trans hEq)
        simp [cacheSet, cacheFind, hk, hm, hnm, ih]
    · by_cases hm : k = M
      · have hMn : ¬ M = name := fun hEq => hk (hm.trans hEq)
        simp [cacheSet, cacheFind, hk, hm, hMn]
      · simp [cacheSet, cacheFind, hk, hm, ih]

theorem isSome_cacheFind_finishLoad (ms : Models) (name M : String) (res : Option String) :
    (cacheFind (finishLoad ms name res) M).isSome = (cacheFind ms M).isSome := by
  unfold finishLoad
  cases h : cacheFind ms name with
  | none => rfl
  | some e =>
    by_cases hl : e.loaded
    · simp [hl]
    · simp [hl, isSome_cacheFind_cacheSet]

theorem runCache_count_le (ops : List CacheOp) : ∀ (ms : Models) (M : String),
    ((runCache ms ops).2.count M) ≤ (if (cacheFind ms M).isSome then 0 else 1) := by
  induction ops with
  | nil => intro ms M; simp [runCache]
  | cons op ops ih =>
    intro ms M
    cases op with
    | acq name =>
      cases hf : cacheFind ms name with
      | some e =>
        have := ih ms M
        simpa [runCache, getOrLoadModel, hf] using this
      | none =>
        by_cases hMn : name = M
        · subst hMn
          have hrest := ih ((name, freshEntry) :: ms) name
          rw [cacheFind_cons_self] at hrest
          simp only [Option.isSome_some, if_pos] at hrest
          simp [runCache, getOrLoadModel, hf, List.count_cons, hrest]
        · have hrest := ih ((name, freshEntry) :: ms) M
          rw [cacheFind_cons_ne ms freshEntry hMn] at hrest
          have hne : (name == M) = false := by simp [hMn]
          simp only [runCache, getOrLoadModel, hf]
          simpa [List.count_cons, hne] using hrest
    | fin name res =>
      have := ih (finishLoad ms name res) M
      rw [isSome_cacheFind_finishLoad] at this
      simpa [runCache] using this

theorem runCache_stable (ops : List CacheOp) : ∀ (ms : Models) (M : String) (e : ModelEntry),
    cacheFind ms M = some e → e.loaded = true →
    cacheFind (runCache ms ops).1 M = some e := by
  induction ops with
  | nil => intro ms M e h _; simpa [runCache] using h
  | cons op ops ih =>
    intro ms M e h hl
    cases op with
    | acq name =>
      cases hf : cacheFind ms name with
      | some e2 => simpa [runCache, getOrLoadModel, hf] using ih ms M e h hl
      | none =>
        have hne : name ≠ M := fun hEq => by rw [hEq, h] at hf; exact Option.noConfusion hf
        have : cacheFind ((name, freshEntry) :: ms) M = some e := by
          rw [cacheFind_cons_ne ms freshEntry hne, h]
        simpa [runCache, getOrLoadModel, hf] using ih _ M e this hl
    | fin name res =>
      by_cases hEq : name = M
      · have hfin : finishLoad ms name res = ms := by
          unfold finishLoad
          rw [hEq, h]
          simp [hl]
        simpa [runCache, hfin] using ih ms M e h hl
      · have : cacheFind (finishLoad ms name res) M = some e := by
          unfold finishLoad
          cases hf : cacheFind ms name with
          | none => exact h
          | some e2 =>
            by_cases hl2 : e2.loaded
            · simpa [hl2] using h
            · simpa [hl2, cacheFind_cacheSet_ne ms (loadedEntry res) hEq] using h
        simpa [runCache] using ih _ M e this hl

/-! ## Helper lemmas about the pipeline -/

theorem mem_notifyEff {cfg : RConfig} {a b c : String} {e : Effect}
    (h : e ∈ notifyEff cfg a b c) : e = Effect.notify a b c := by
  unfold notifyEff at h
  cases hn : cfg.notifications <;> simp [hn] at h
  exact h

theorem stopPrefix_state (cfg : RConfig) (s : DState) :
    (stopPrefix cfg s).1.recording = false ∧
    (stopPrefix cfg s).1.temp_file = s.temp_file ∧
    (stopPrefix cfg s).1.active_language = s.active_language ∧
    (stopPrefix cfg s).1.active_model_name = s.active_model_name ∧
    (stopPrefix cfg s).1.models = s.models ∧
    (stopPrefix cfg s).1.files = s.files := by
  unfold stopPrefix
  by_cases h : s.record_process.isSome <;> simp [h]

theorem awaitModel_state (s : DState) (lr : Option String) :
    (awaitModel s lr).1.recording = s.recording ∧
    (awaitModel s lr).1.temp_file = s.temp_file ∧
    (awaitModel s lr).1.active_language = s.active_language ∧
    (awaitModel s lr).1.active_model_name = s.active_model_name ∧
    (awaitModel s lr).1.files = s.files := by
  unfold awaitModel
  exact ⟨rfl, rfl, rfl, rfl, rfl⟩

theorem waitedEntry_stopPrefix (cfg : RConfig) (s : DState) (lr : Option String) :
    waitedEntry (stopPrefix cfg s).1 lr = waitedEntry s lr := by
  unfold waitedEntry awaitModel
  rw [(stopPrefix_state cfg s).2.2.2.2.1, (stopPrefix_state cfg s).2.2.2.1]

theorem stopPrefix_no_delivery (cfg : RConfig) (s : DState) :
    ∀ e ∈ (stopPrefix cfg s).2, deliveryEffect e = false := by
  intro e he
  unfold stopPrefix at he
  by_cases h : s.record_process.isSome <;> simp [h] at he
  · rcases he with rfl | rfl | he
    · rfl
    · rfl
    · rw [mem_notifyEff he]; rfl
  · rcases he with rfl | he
    · rfl
    · rw [mem_notifyEff he]; rfl

theorem cleanup_no_delivery (s : DState) :
    ∀ e ∈ (cleanupTempFile s).2, deliveryEffect e = false := by
  intro e he
  unfold cleanupTempFile at he
  cases htf : s.temp_file with
  | none => simp [htf] at he
  | some p =>
    simp only [htf] at he
    split at he
    · simp at he
      rw [he]; rfl
    · simp at he

theorem stopPrefix_no_delete (cfg : RConfig) (s : DState) :
    ∀ e ∈ (stopPrefix cfg s).2, isDeleteFile e = false := by
  intro e he
  unfold stopPrefix at he
  by_cases h : s.record_process.isSome <;> simp [h] at he
  · rcases he with rfl | rfl | he
    · rfl
    · rfl
    · rw [mem_notifyEff he]; rfl
  · rcases he with rfl | he
    · rfl
    · rw [mem_notifyEff he]; rfl

theorem clipboard_mem_tryBlock {cfg : RConfig} {engine : Option Unit}
    {path : String} {hint : Option String} {oc : Except String (List String)} {t : String}
    (h : Effect.clipboardWrite t ∈ tryBlock cfg engine path hint oc) :
    ∃ segs, oc = Except.ok segs ∧ t = assembleTranscript segs ∧ pyTruthy t = true := by
  unfold tryBlock at h
  cases engine with
  | none =>
    rcases List.mem_cons.mp h with h1 | h1
    · exact absurd h1 (by simp)
    · exact absurd (mem_notifyEff h1) (by simp)
  | some u =>
    rcases List.mem_cons.mp h with h1 | h1
    · exact absurd h1 (by simp)
    · cases oc with
      | error e =>
        rcases List.mem_cons.mp h1 with h2 | h2
        · exact absurd h2 (by simp)
        · exact absurd (mem_notifyEff h2) (by simp)
      | ok segs =>
        by_cases ht : pyTruthy (assembleTranscript segs) = true
        · simp only [ht, if_pos] at h1
          rcases List.mem_cons.mp h1 with h2 | h2
          · exact ⟨segs, rfl, by injection h2, by injection h2 with h3; rw [h3]; exact ht⟩
          · rcases List.mem_append.mp h2 with h3 | h3
            · by_cases ha : cfg.auto_type <;> simp [ha] at h3
            · rcases List.mem_cons.mp h3 with h4 | h4
              · exact absurd h4 (by simp)
              · exact absurd (mem_notifyEff h4) (by simp)
        · simp only [eq_false_of_ne_true ht, if_neg, Bool.false_eq_true] at h1
          rcases List.mem_cons.mp h1 with h2 | h2
          · exact absurd h2 (by simp)
          · exact absurd (mem_notifyEff h2) (by simp)

theorem typeText_mem_tryBlock {cfg : RConfig} {engine : Option Unit}
    {path : String} {hint : Option String} {oc : Except String (List String)} {t : String}
    (h : Effect.typeText t ∈ tryBlock cfg engine path hint oc) :
    cfg.auto_type = true ∧
      ∃ segs, oc = Except.ok segs ∧ t = assembleTranscript segs ∧ pyTruthy t = true := by
  unfold tryBlock at h
  cases engine with
  | none =>
    rcases List.mem_cons.mp h with h1 | h1
    · exact absurd h1 (by simp)
    · exact absurd (mem_notifyEff h1) (by simp)
  | some u =>
    rcases List.mem_cons.mp h with h1 | h1
    · exact absurd h1 (by simp)
    · cases oc with
      | error e =>
        rcases List.mem_cons.mp h1 with h2 | h2
        · exact absurd h2 (by simp)
        · exact absurd (mem_notifyEff h2) (by simp)
      | ok segs =>
        by_cases ht : pyTruthy (assembleTranscript segs) = true
        · simp only [ht, if_pos] at h1
          rcases List.mem_cons.mp h1 with h2 | h2
          · exact absurd h2 (by simp)
          · rcases List.mem_append.mp h2 with h3 | h3
            · by_cases ha : cfg.auto_type
              · simp [ha] at h3
                exact ⟨ha, segs, rfl, h3, h3 ▸ ht⟩
              · simp [ha] at h3
            · rcases List.mem_cons.mp h3 with h4 | h4
              · exact absurd h4 (by simp)
              · exact absurd (mem_notifyEff h4) (by simp)
        · simp only [eq_false_of_ne_true ht, if_neg, Bool.false_eq_true] at h1
          rcases List.mem_cons.mp h1 with h2 | h2
          · exact absurd h2 (by simp)
          · exact absurd (mem_notifyEff h2) (by simp)

theorem transcribe_mem_tryBlock {cfg : RConfig} {engine : Option Unit}
    {path p : String} {hint h2 : Option String} {oc : Except String (List String)}
    (h : Effect.transcribeCall p h2 ∈ tryBlock cfg engine path hint oc) :
    p = path ∧ h2 = hint := by
  unfold tryBlock at h
  cases engine with
  | none =>
    rcases List.mem_cons.mp h with h1 | h1
    · exact absurd h1 (by simp)
    · exact absurd (mem_notifyEff h1) (by simp)
  | some u =>
    rcases List.mem_cons.mp h with h1 | h1
    · refine ⟨by injection h1, by injection h1 with ha hb⟩
    · cases oc with
      | error e =>
        rcases List.mem_cons.mp h1 with hx | hx
        · exact absurd hx (by simp)
        · exact absurd (mem_notifyEff hx) (by simp)
      | ok segs =>
        by_cases ht : pyTruthy (assembleTranscript segs) = true
        · simp only [ht, if_pos] at h1
          rcases List.mem_cons.mp h1 with hx | hx
          · exact absurd hx (by simp)
          · rcases List.mem_append.mp hx with hy | hy
            · by_cases ha : cfg.auto_type <;> simp [ha] at hy
            · rcases List.mem_cons.mp hy with hz | hz
              · exact absurd hz (by simp)
              · exact absurd (mem_notifyEff hz) (by simp)
        · simp only [eq_false_of_ne_true ht, if_neg, Bool.false_eq_true] at h1
          rcases List.mem_cons.mp h1 with hx | hx
          · exact absurd hx (by simp)
          · exact absurd (mem_notifyEff hx) (by simp)

theorem cleanup_state (s : DState) :
    (cleanupTempFile s).1.recording = s.recording ∧
    (cleanupTempFile s).1.record_process = s.record_process ∧
    (cleanupTempFile s).1.active_language = s.active_language ∧
    (cleanupTempFile s).1.active_model_name = s.active_model_name := by
  unfold cleanupTempFile
  cases htf : s.temp_file with
  | none => exact ⟨rfl, rfl, rfl, rfl⟩
  | some p =>
    by_cases hc : p ∈ s.files <;> simp [hc]

theorem stopRecording_not_recording {cfg : RConfig} {lr : Option String}
    {oc : Except String (List String)} {s : DState} (h : s.recording = false) :
    stopRecording cfg lr oc s = (s, []) := by
  unfold stopRecording
  simp [h]

theorem stopRecording_clears_recording {cfg : RConfig} {lr : Option String}
    {oc : Except String (List String)} {s : DState} (h : s.recording = true) :
    (stopRecording cfg lr oc s).1.recording = false := by
  unfold stopRecording
  rw [if_neg (by simp [h])]
  split
  · exact ((awaitModel_state _ _).1.trans (stopPrefix_state cfg s).1)
  · exact ((cleanup_state _).1.trans ((awaitModel_state _ _).1.trans (stopPrefix_state cfg s).1))

theorem mem_stopRecording_cases {cfg : RConfig} {lr : Option String}
    {oc : Except String (List String)} {s : DState} {e : Effect}
    (h : e ∈ (stopRecording cfg lr oc s).2) (hd : deliveryEffect e = true) :
    e ∈ tryBlock cfg (waitedEntry s lr).model (s.temp_file.getD "")
        (languageKwarg s.active_language s.active_model_name) oc ∧
    pyTruthyOpt (waitedEntry s lr).error = false ∧ s.recording = true := by
  by_cases hrec : s.recording = false
  · rw [stopRecording_not_recording hrec] at h
    simp at h
  · have hrec2 : s.recording = true := by
      revert hrec; cases s.recording <;> simp
    unfold stopRecording at h
    rw [if_neg hrec] at h
    have hw : (awaitModel (stopPrefix cfg s).1 lr).2.1 = waitedEntry s lr :=
      waitedEntry_stopPrefix cfg s lr
    split at h
    · rename_i herr
      rw [List.mem_append] at h
      rcases h with h | h
      · rw [List.mem_append] at h
        rcases h with h | h
        · rw [stopPrefix_no_delivery cfg s e h] at hd
          exact Bool.noConfusion hd
        · split at h
          · rw [List.mem_singleton.mp h] at hd
            exact Bool.noConfusion hd
          · simp at h
      · rcases List.mem_cons.mp h with h | h
        · rw [h] at hd
          exact Bool.noConfusion hd
        · rw [mem_notifyEff h] at hd
          exact Bool.noConfusion hd
    · rename_i herr
      rw [hw] at herr
      have herr2 : pyTruthyOpt (waitedEntry s lr).error = false := by
        revert herr; cases pyTruthyOpt (waitedEntry s lr).error <;> simp
      rw [List.mem_append] at h
      rcases h with h | h
      · rw [List.mem_append] at h
        rcases h with h | h
        · rw [List.mem_append] at h
          rcases h with h | h
          · rw [stopPrefix_no_delivery cfg s e h] at hd
            exact Bool.noConfusion hd
          · split at h
            · rw [List.mem_singleton.mp h] at hd
              exact Bool.noConfusion hd
            · simp at h
        · rw [hw, (awaitModel_state _ _).2.1, (stopPrefix_state cfg s).2.1,
            (awaitModel_state _ _).2.2.1, (stopPrefix_state cfg s).2.2.1,
            (awaitModel_state _ _).2.2.2.1, (stopPrefix_state cfg s).2.2.2.1] at h
          exact ⟨h, herr2, hrec2⟩
      · rw [cleanup_no_delivery _ e h] at hd
        exact Bool.noConfusion hd

theorem stopRecording_effects_success {cfg : RConfig} {lr : Option String}
    {oc : Except String (List String)} {s : DState}
    (hrec : s.recording = true) (herr : pyTruthyOpt (waitedEntry s lr).error = false) :
    (stopRecording cfg lr oc s).2 =
      (stopPrefix cfg s).2 ++
        (if (awaitModel (stopPrefix cfg s).1 lr).2.2 then
          [Effect.spawnLoad s.active_model_name] else []) ++
        tryBlock cfg (waitedEntry s lr).model (s.temp_file.getD "")
          (languageKwarg s.active_language s.active_model_name) oc ++
        (cleanupTempFile (awaitModel (stopPrefix cfg s).1 lr).1).2 := by
  unfold stopRecording
  rw [if_neg (by simp [hrec])]
  have hw : (awaitModel (stopPrefix cfg s).1 lr).2.1 = waitedEntry s lr :=
    waitedEntry_stopPrefix cfg s lr
  rw [if_neg (by rw [hw, herr]; simp)]
  rw [hw, (awaitModel_state _ _).2.1, (stopPrefix_state cfg s).2.1,
    (awaitModel_state _ _).2.2.1, (stopPrefix_state cfg s).2.2.1,
    (awaitModel_state _ _).2.2.2.1, (stopPrefix_state cfg s).2.2.2.1]

/-! ## Claim theorems -/

/-- C1: for every model identifier, the first acquire creates exactly one
Loading cache entry and spawns exactly one loader; every later acquire
(whatever the entry state: Loading, Ready or Failed) returns the existing
entry without spawning another loader; over any sequence of cache
operations at most one loader is spawned per identifier (exactly one once
an acquire has happened), and once an entry is terminal (loaded) it never
changes again, so every waiter observes the same terminal state. -/
theorem c1_cache_at_most_one_load :
    ∀ (ms : Models) (name : String),
      (cacheFind ms name = none →
        getOrLoadModel ms name = ((name, freshEntry) :: ms, freshEntry, true) ∧
        cacheFind (getOrLoadModel ms name).1 name = some freshEntry ∧
        freshEntry.loaded = false) ∧
      (∀ e, cacheFind ms name = some e → getOrLoadModel ms name = (ms, e, false)) ∧
      (∀ ops, (runCache ms ops).2.count name ≤ if (cacheFind ms name).isSome then 0 else 1) ∧
      (cacheFind ms name = none →
        ∀ ops, (runCache ms (CacheOp.acq name :: ops)).2.count name = 1) ∧
      (∀ ops e, cacheFind ms name = some e → e.loaded = true →
        cacheFind (runCache ms ops).1 name = some e) ∧
      (∀ (s : DState) (lr : Option String) (e : ModelEntry),
        s.active_model_name = name → cacheFind s.models name = some e → e.loaded = true →
        waitedEntry s lr = e) := by
  intro ms name
  refine ⟨?_, ?_, ?_, ?_, ?_, ?_⟩
  · intro h
    refine ⟨by simp [getOrLoadModel, h], ?_, rfl⟩
    simp [getOrLoadModel, h, cacheFind_cons_self]
  · intro e h
    simp [getOrLoadModel, h]
  · intro ops
    exact runCache_count_le ops ms name
  · intro h ops
    have hrest := runCache_count_le ops ((name, freshEntry) :: ms) name
    rw [cacheFind_cons_self] at hrest
    simp only [Option.isSome_some, if_pos] at hrest
    simp [runCache, getOrLoadModel, h, List.count_cons, Nat.le_zero.mp hrest]
  · intro ops e h hl
    exact runCache_stable ops ms name e h hl
  · intro s lr e h1 h2 h3
    unfold waitedEntry awaitModel getOrLoadModel
    rw [h1, h2]
    simp [h3]

/-- C1 witness: from an empty cache, acquiring base (then finishing its
load and acquiring it again) spawns exactly one loader. -/
theorem c1_cache_at_most_one_load_witness :
    cacheFind [] "base" = none ∧
    (runCache [] [CacheOp.acq "base", CacheOp.fin "base" none,
      CacheOp.acq "base"]).2.count "base" = 1 :=
  ⟨rfl, (c1_cache_at_most_one_load [] "base").2.2.2.1 rfl
    [CacheOp.fin "base" none, CacheOp.acq "base"]⟩

/-- C2 is a code bug: when the model cache entry is Failed, stop_recording
returns at line 227, before the try/finally block, so the temporary audio
file is never deleted on that exit path (it stays on disk and in the
session field), although the spec requires deletion on every exit path. -/
theorem c2_failed_model_skips_cleanup :
    c2state.recording = true ∧
    c2state.temp_file = some "tmp1.wav" ∧
    pyTruthyOpt (waitedEntry c2state (some "cuda error")).error = true ∧
    (stopRecording cfgOn (some "cuda error") (Except.ok ["hi"]) c2state).2.all
      (fun e => !(isDeleteFile e)) = true ∧
    "tmp1.wav" ∈ (stopRecording cfgOn (some "cuda error") (Except.ok ["hi"]) c2state).1.files ∧
    (stopRecording cfgOn (some "cuda error") (Except.ok ["hi"]) c2state).1.recording = false := by
  decide

/-- C3 counterexample: with f12 bound to auto-detect and f9 bound to
English, a session started by pressing f12 is stopped by releasing f9 - a
bound key that is not the active key - so the hotkey-up event for another
key does not leave the session state unchanged, contrary to the claim. -/
theorem c3_counterexample :
    c3s1.recording = true ∧
    c3s1.active_language = "auto" ∧
    (keyFind map2ex (PKey.named "f9")).isSome = true ∧
    PKey.named "f9" ≠ PKey.named "f12" ∧
    (on_release map2ex cfgOn none (Except.ok []) (PKey.named "f9") c3s1).1.recording = false ∧
    (on_release map2ex cfgOn none (Except.ok []) (PKey.named "f9") c3s1).1 ≠ c3s1 := by
  decide

/-- C3 amended: while a recording is active, a hotkey-up event for ANY
bound key stops the recording (the handler does not track which key
started the session); hotkey-up events for unbound keys, or while Idle,
leave the session state unchanged and fire no effects. -/
theorem c3_release_any_bound_key_stops :
    ∀ (map : HotkeyMap) (cfg : RConfig) (lr : Option String)
      (oc : Except String (List String)) (k : PKey) (s : DState),
      ((keyFind map k).isSome = true → s.recording = true →
        on_release map cfg lr oc k s = stopRecording cfg lr oc s ∧
        (on_release map cfg lr oc k s).1.recording = false) ∧
      ((keyFind map k).isSome = false ∨ s.recording = false →
        on_release map cfg lr oc k s = (s, [])) := by
  intro map cfg lr oc k s
  constructor
  · intro h1 h2
    have heq : on_release map cfg lr oc k s = stopRecording cfg lr oc s := by
      unfold on_release
      rw [if_pos (by rw [h1, h2]; rfl)]
    exact ⟨heq, heq ▸ stopRecording_clears_recording h2⟩
  · intro h
    unfold on_release
    rcases h with h | h
    · rw [if_neg (by rw [h]; simp)]
    · rw [if_neg (by rw [h]; simp)]

/-- C3 witness: releasing the bound key f12 while the f12-started session
is recording stops it. -/
theorem c3_release_any_bound_key_stops_witness :
    (keyFind map2ex (PKey.named "f12")).isSome = true ∧ c3s1.recording = true ∧
    on_release map2ex cfgOn none (Except.ok []) (PKey.named "f12") c3s1 =
      stopRecording cfgOn none (Except.ok []) c3s1 :=
  ⟨by decide, by decide,
    ((c3_release_any_bound_key_stops map2ex cfgOn none (Except.ok [])
      (PKey.named "f12") c3s1).1 (by decide) (by decide)).1⟩

/-- C5: the derived model identifier appends .en to the base name exactly
when the language is en, and leaves the base name unchanged for every
other language (including auto); the languages dictionary built by
load_config assigns every entry its derived model. -/
theorem c5_derive_model :
    (∀ base : String, deriveModel "en" base = base ++ ".en") ∧
    (∀ lang base : String, lang ≠ "en" → deriveModel lang base = base) ∧
    deriveModel "en" "base" = "base.en" ∧
    deriveModel "fr" "base" = "base" ∧
    deriveModel "auto" "small" = "small" ∧
    (∀ (ms legacy lang : String) (its : List (String × String)) (e : LangEntry),
      (lang, e) ∈ loadLanguages ms (some its) legacy → e.model = deriveModel lang ms) := by
  refine ⟨fun base => by simp [deriveModel], fun lang base h => by simp [deriveModel, h],
    by decide, by decide, by decide, ?_⟩
  intro ms legacy lang its e hm
  unfold loadLanguages at hm
  obtain ⟨p, hp, heq⟩ := List.mem_map.mp hm
  cases heq
  rfl

/-- C5 witness: concrete instances of the non-en branch and of a languages
section entry. -/
theorem c5_derive_model_witness :
    ("fr" : String) ≠ "en" ∧ deriveModel "fr" "small" = "small" ∧
    ("de", LangEntry.mk "f9" "small") ∈ loadLanguages "small" (some [("de", " f9 ")]) "f12" ∧
    (LangEntry.mk "f9" "small").model = deriveModel "de" "small" :=
  ⟨by decide, c5_derive_model.2.1 "fr" "small" (by decide), by decide,
    c5_derive_model.2.2.2.2.2 "small" "f12" "de" [("de", " f9 ")]
      (LangEntry.mk "f9" "small") (by decide)⟩

/-- C7: start_recording while already recording is a no-op (state and
effects unchanged: no second capture process, fields keep their values);
stop_recording while not recording returns immediately with no effects. -/
theorem c7_session_gating :
    ∀ (cfg : RConfig) (language model hk path : String) (pid : Nat)
      (lr : Option String) (oc : Except String (List String)) (s : DState),
      (s.recording = true →
        startRecording cfg language model hk path pid s = (s, [])) ∧
      (s.recording = false → stopRecording cfg lr oc s = (s, [])) := by
  intro cfg language model hk path pid lr oc s
  constructor
  · intro h
    unfold startRecording
    rw [if_pos h]
  · intro h
    exact stopRecording_not_recording h

/-- C7 witness: both gates at concrete states. -/
theorem c7_session_gating_witness :
    readyState.recording = true ∧
    startRecording cfgOn "en" "base.en" "f9" "x.wav" 9 readyState = (readyState, []) ∧
    initState.recording = false ∧
    stopRecording cfgOn none (Except.ok []) initState = (initState, []) :=
  ⟨rfl, (c7_session_gating cfgOn "en" "base.en" "f9" "x.wav" 9 none
      (Except.ok []) readyState).1 rfl,
   rfl, (c7_session_gating cfgOn "en" "base.en" "f9" "x.wav" 9 none
      (Except.ok []) initState).2 rfl⟩

/-- C4: for every transcription call the language kwarg is set iff the
active language is not the auto sentinel and the active model identifier
does not end in .en (for reachable sessions the active language is a
non-empty config key); a .en model never receives a hint even for a
concrete language such as de; and every transcription call the pipeline
emits carries exactly this kwarg for the session's fields. -/
theorem c4_language_hint_iff :
    ∀ (lang model : String), lang ≠ "" →
      (((languageKwarg lang model).isSome = true) ↔
        (lang ≠ "auto" ∧ pyEndsWith model ".en" = false)) ∧
      (∀ h, languageKwarg lang model = some h → h = lang) ∧
      languageKwarg "de" "base.en" = none ∧
      (∀ (cfg : RConfig) (lr : Option String) (oc : Except String (List String))
        (s : DState) (p : String) (hint : Option String),
        Effect.transcribeCall p hint ∈ (stopRecording cfg lr oc s).2 →
        hint = languageKwarg s.active_language s.active_model_name) := by
  intro lang model hne
  refine ⟨?_, ?_, by decide, ?_⟩
  · unfold languageKwarg
    by_cases h1 : lang = "auto" <;> by_cases h2 : pyEndsWith model ".en" = false <;>
      simp [h1, h2, pyTruthy, hne]
  · intro h hh
    unfold languageKwarg at hh
    split at hh
    · split at hh
      · injection hh with h3
        exact h3.symm
      · exact Option.noConfusion hh
    · exact Option.noConfusion hh
  · intro cfg lr oc s p hint hmem
    have hd : deliveryEffect (Effect.transcribeCall p hint) = true := rfl
    obtain ⟨htb, _, _⟩ := mem_stopRecording_cases hmem hd
    exact (transcribe_mem_tryBlock htb).2

/-- C4 witness: a concrete language and model discharging the hypothesis,
plus the .en suppression instance. -/
theorem c4_language_hint_iff_witness :
    ("de" : String) ≠ "" ∧
    (((languageKwarg "de" "small").isSome = true) ↔
      (("de" : String) ≠ "auto" ∧ pyEndsWith "small" ".en" = false)) ∧
    languageKwarg "de" "base.en" = none :=
  ⟨by decide, (c4_language_hint_iff "de" "small" (by decide)).1,
    (c4_language_hint_iff "de" "small" (by decide)).2.2.1⟩

/-- C6: the final transcript is the emission-ordered join of the stripped
segment texts with single spaces; the example segments produce exactly
"hello world", and every clipboard write the pipeline emits carries the
transcript assembled this way from the engine's segments. -/
theorem c6_transcript_assembly :
    assembleTranscript ["  hello ", "world "] = "hello world" ∧
    (∀ segs, assembleTranscript segs = String.intercalate " " (segs.map pyStrip)) ∧
    (∀ (cfg : RConfig) (lr : Option String) (oc : Except String (List String))
      (s : DState) (t : String),
      Effect.clipboardWrite t ∈ (stopRecording cfg lr oc s).2 →
      ∃ segs, oc = Except.ok segs ∧ t = assembleTranscript segs) := by
  refine ⟨by decide, fun segs => rfl, ?_⟩
  intro cfg lr oc s t h
  obtain ⟨htb, _, _⟩ := mem_stopRecording_cases h rfl
  obtain ⟨segs, h1, h2, _⟩ := clipboard_mem_tryBlock htb
  exact ⟨segs, h1, h2⟩

/-- C6 witness: a full stop_recording run on the example segments writes
exactly "hello world" to the clipboard. -/
theorem c6_transcript_assembly_witness :
    Effect.clipboardWrite "hello world" ∈
      (stopRecording cfgOn none (Except.ok ["  hello ", "world "]) readyState).2 ∧
    ∃ segs, (Except.ok ["  hello ", "world "] : Except String (List String)) = Except.ok segs ∧
      "hello world" = assembleTranscript segs :=
  ⟨by decide, c6_transcript_assembly.2.2 cfgOn none (Except.ok ["  hello ", "world "])
    readyState "hello world" (by decide)⟩

/-- C8 is a code bug (the same early-return slip as C2): after a session
whose model load failed, the next session starts although the previous
session's temporary file was never deleted - the run below starts its
second capture (spawnArecord on rec2.wav) while rec1.wav still exists and
no deleteFile effect has occurred, so cleanup of session N does not
strictly precede the start of session N+1. -/
theorem c8_new_session_before_cleanup :
    Effect.spawnArecord "rec1.wav" ∈ c8run.2 ∧
    Effect.spawnArecord "rec2.wav" ∈ c8run.2 ∧
    c8run.2.all (fun e => !(isDeleteFile e)) = true ∧
    "rec1.wav" ∈ c8run.1.files ∧
    c8run.1.recording = true := by
  decide

/-- C9: an empty assembled transcript produces the no-speech observable
event (console line always, notification when enabled) and no clipboard
write or keystroke injection; conversely the clipboard and typing
collaborators are only ever invoked with a non-empty transcript. -/
theorem c9_empty_transcript_no_delivery :
    (∀ (cfg : RConfig) (lr : Option String) (s : DState) (segs : List String),
      s.recording = true →
      pyTruthyOpt (waitedEntry s lr).error = false →
      (waitedEntry s lr).model = some () →
      assembleTranscript segs = "" →
      Effect.consoleLine "No speech detected" ∈ (stopRecording cfg lr (Except.ok segs) s).2 ∧
      (cfg.notifications = true →
        Effect.notify "No speech detected" "Try speaking louder" "dialog-warning" ∈
          (stopRecording cfg lr (Except.ok segs) s).2) ∧
      (∀ t, Effect.clipboardWrite t ∉ (stopRecording cfg lr (Except.ok segs) s).2) ∧
      (∀ t, Effect.typeText t ∉ (stopRecording cfg lr (Except.ok segs) s).2)) ∧
    (∀ (cfg : RConfig) (lr : Option String) (oc : Except String (List String))
      (s : DState) (t : String),
      (Effect.clipboardWrite t ∈ (stopRecording cfg lr oc s).2 → t ≠ "") ∧
      (Effect.typeText t ∈ (stopRecording cfg lr oc s).2 → t ≠ "")) := by
  constructor
  · intro cfg lr s segs hrec herr hmod hempty
    have htb : tryBlock cfg (waitedEntry s lr).model (s.temp_file.getD "")
        (languageKwarg s.active_language s.active_model_name) (Except.ok segs) =
        Effect.transcribeCall (s.temp_file.getD "")
            (languageKwarg s.active_language s.active_model_name) ::
          Effect.consoleLine "No speech detected" ::
          notifyEff cfg "No speech detected" "Try speaking louder" "dialog-warning" := by
      rw [hmod]
      unfold tryBlock
      simp [hempty, pyTruthy]
    refine ⟨?_, ?_, ?_, ?_⟩
    · rw [stopRecording_effects_success hrec herr, htb]
      simp
    · intro hn
      rw [stopRecording_effects_success hrec herr, htb]
      simp [notifyEff, hn]
    · intro t hmem
      obtain ⟨htb2, _, _⟩ := mem_stopRecording_cases hmem rfl
      obtain ⟨segs2, h1, h2, h3⟩ := clipboard_mem_tryBlock htb2
      injection h1 with h1
      rw [← h1, hempty] at h2
      rw [h2] at h3
      exact absurd h3 (by decide)
    · intro t hmem
      obtain ⟨htb2, _, _⟩ := mem_stopRecording_cases hmem rfl
      obtain ⟨_, segs2, h1, h2, h3⟩ := typeText_mem_tryBlock htb2
      injection h1 with h1
      rw [← h1, hempty] at h2
      rw [h2] at h3
      exact absurd h3 (by decide)
  · intro cfg lr oc s t
    constructor
    · intro hmem
      obtain ⟨htb2, _, _⟩ := mem_stopRecording_cases hmem rfl
      obtain ⟨segs2, _, _, h3⟩ := clipboard_mem_tryBlock htb2
      simpa [pyTruthy] using h3
    · intro hmem
      obtain ⟨htb2, _, _⟩ := mem_stopRecording_cases hmem rfl
      obtain ⟨_, segs2, _, _, h3⟩ := typeText_mem_tryBlock htb2
      simpa [pyTruthy] using h3

/-- C9 witness: a whitespace-only segment assembles to the empty
transcript and yields the no-speech console event. -/
theorem c9_empty_transcript_no_delivery_witness :
    readyState.recording = true ∧
    pyTruthyOpt (waitedEntry readyState none).error = false ∧
    (waitedEntry readyState none).model = some () ∧
    assembleTranscript ["   "] = "" ∧
    Effect.consoleLine "No speech detected" ∈
      (stopRecording cfgOn none (Except.ok ["   "]) readyState).2 :=
  ⟨rfl, by decide, by decide, by decide,
    (c9_empty_transcript_no_delivery.1 cfgOn none readyState ["   "] rfl
      (by decide) (by decide) (by decide)).1⟩

/-- C10 counterexample: the empty hotkey name (zero characters, so not a
multi-character name) also takes the f12 fallback branch, so the fallback
is not restricted to multi-character names. -/
theorem c10_counterexample :
    (get_hotkey "").2 = true ∧ (get_hotkey "").1 = PKey.named "f12" ∧
    (pyLower "").length = 0 := by
  decide

/-- C10 amended: after lowercasing, a one-character name that matches no
named key resolves to the corresponding character key and never takes the
f12 fallback; the fallback branch is taken exactly for names that match no
named key and are not exactly one character long (multi-character or
empty), and it always yields f12. -/
theorem c10_single_char_never_falls_back :
    ∀ name : String,
      (isNamedKey (pyLower name) = false → (pyLower name).length = 1 →
        (get_hotkey name).1 = PKey.char ((pyLower name).data.headD ' ') ∧
        (get_hotkey name).2 = false) ∧
      ((get_hotkey name).2 = true ↔
        (isNamedKey (pyLower name) = false ∧ (pyLower name).length ≠ 1)) ∧
      ((get_hotkey name).2 = true → (get_hotkey name).1 = PKey.named "f12") := by
  intro name
  unfold get_hotkey
  by_cases h1 : isNamedKey (pyLower name) = true <;>
    by_cases h2 : (pyLower name).length = 1 <;>
      simp [h1, h2]

/-- C10 witness: the name Q lowers to the single character q, matches no
named key, and resolves to the character key without the fallback. -/
theorem c10_single_char_never_falls_back_witness :
    isNamedKey (pyLower "Q") = false ∧ (pyLower "Q").length = 1 ∧
    (get_hotkey "Q").1 = PKey.char ((pyLower "Q").data.headD ' ') ∧
    (get_hotkey "Q").2 = false :=
  ⟨by decide, by decide,
    ((c10_single_char_never_falls_back "Q").1 (by decide) (by decide)).1,
    ((c10_single_char_never_falls_back "Q").1 (by decide) (by decide)).2⟩
